import Mathlib

/-!
Verification of the depth-estimation core of the food_volume_estimation
repository against its specification.

The development shallowly embeds the code of
`code/custom_modules.py` (ProjectionLayer, InverseDepthNormalization,
Losses.reprojection_loss, Losses.depth_smoothness, Losses.__ssim and the
gradient helpers) and the `/predict` handler of
`food_volume_estimation_app.py`.

Tensors are embedded as total functions from `Fin`-bounded indices to
rationals (for the exact arithmetic parts) or reals (for the depth
smoothness loss, which uses the exponential).  Machine floats are
modelled as exact arithmetic.  Code that can raise an exception is
embedded with `Except` / `Option`.
-/

/-! ## InverseDepthNormalization (custom_modules.py, lines 76-103) -/

/-- State of an `InverseDepthNormalization` layer, as stored by
`InverseDepthNormalization.__init__`. -/
structure InverseDepthNormalization where
  min_depth : ℚ
  max_depth : ℚ
  min_disp : ℚ
  max_disp : ℚ

/-- Embeds `InverseDepthNormalization.__init__(min_depth, max_depth)`:
stores the depth bounds together with `min_disp = 1 / max_depth` and
`max_disp = 1 / min_depth`. -/
def InverseDepthNormalization.init (min_depth max_depth : ℚ) :
    InverseDepthNormalization :=
  { min_depth := min_depth
    max_depth := max_depth
    min_disp := 1 / max_depth
    max_disp := 1 / min_depth }

/-- Embeds `InverseDepthNormalization.call` on a single tensor element:
`normalized_disp = min_disp + (max_disp - min_disp) * x` followed by
`depth_map = 1 / normalized_disp`.  The Keras layer applies exactly this
scalar map elementwise. -/
def InverseDepthNormalization.call (L : InverseDepthNormalization) (x : ℚ) : ℚ :=
  1 / (L.min_disp + (L.max_disp - L.min_disp) * x)

/-! ## Tensors

A 4-D tensor of shape `batch x height x width x channels` with entries in
`α` is a total function on `Fin`-bounded indices.  The spatial dimensions
of images fed to the SSIM scorer are written `h + 2` / `w + 2`: TensorFlow
REFLECT padding of one pixel requires each padded dimension to be at
least 2, which the indexing types then enforce. -/

/-- 4-D tensor (batch, height, width, channels) over `α`. -/
def Tensor (α : Type) (b h w c : ℕ) : Type :=
  Fin b → Fin h → Fin w → Fin c → α

/-- Index map of a one-pixel TensorFlow REFLECT pad on one axis:
position `i` of the padded axis of size `n + 4` reads position
`reflectPadIdx n i` of the unpadded axis of size `n + 2` (the border is
mirrored without repeating the edge element). -/
def reflectPadIdx (n : ℕ) (i : Fin (n + 4)) : Fin (n + 2) :=
  if h0 : (i : ℕ) = 0 then ⟨1, by omega⟩
  else if h1 : (i : ℕ) = n + 3 then ⟨n, by omega⟩
  else ⟨(i : ℕ) - 1, by have := i.isLt; omega⟩

/-- Embeds `tf.pad(x, [[0,0], [1,1], [1,1], [0,0]], REFLECT)`. -/
def reflect_pad {b h w c : ℕ} (x : Tensor ℚ b (h + 2) (w + 2) c) :
    Tensor ℚ b (h + 4) (w + 4) c :=
  fun n i j k => x n (reflectPadIdx h i) (reflectPadIdx w j) k

/-- Embeds `K.pool2d(x, (3,3), (1,1), valid, pool_mode=avg)`:
3x3 average pooling with stride 1 and no padding. -/
def pool3_avg {b h w c : ℕ} (x : Tensor ℚ b (h + 4) (w + 4) c) :
    Tensor ℚ b (h + 2) (w + 2) c :=
  fun n i j k =>
    (∑ d : Fin 3, ∑ e : Fin 3,
      x n ⟨(i : ℕ) + (d : ℕ), by have := i.isLt; have := d.isLt; omega⟩
          ⟨(j : ℕ) + (e : ℕ), by have := j.isLt; have := e.isLt; omega⟩ k) / 9

/-- Embeds `K.clip(v, lo, hi)` (`tf.clip_by_value`). -/
def Kclip (v lo hi : ℚ) : ℚ := min (max v lo) hi

/-- SSIM stabilization constant `c1 = 0.01**2` from `Losses.__ssim`. -/
def ssim_c1 : ℚ := (1 / 100) ^ 2

/-- SSIM stabilization constant `c2 = 0.03**2` from `Losses.__ssim`. -/
def ssim_c2 : ℚ := (3 / 100) ^ 2

/-- Local 3x3 mean of a reflect-padded image: `mu_x` / `mu_y` of
`Losses.__ssim`. -/
def ssim_mu {b h w c : ℕ} (x : Tensor ℚ b (h + 2) (w + 2) c) :
    Tensor ℚ b (h + 2) (w + 2) c :=
  pool3_avg (reflect_pad x)

/-- Local 3x3 variance: `sigma_x` / `sigma_y` of `Losses.__ssim`
(mean of squares of the padded image minus squared local mean). -/
def ssim_sigma {b h w c : ℕ} (x : Tensor ℚ b (h + 2) (w + 2) c) :
    Tensor ℚ b (h + 2) (w + 2) c :=
  fun n i j k =>
    pool3_avg (fun n2 i2 j2 k2 => reflect_pad x n2 i2 j2 k2 ^ 2) n i j k
      - ssim_mu x n i j k ^ 2

/-- Local 3x3 cross-covariance: `sigma_xy` of `Losses.__ssim`. -/
def ssim_sigma_xy {b h w c : ℕ} (x y : Tensor ℚ b (h + 2) (w + 2) c) :
    Tensor ℚ b (h + 2) (w + 2) c :=
  fun n i j k =>
    pool3_avg (fun n2 i2 j2 k2 =>
        reflect_pad x n2 i2 j2 k2 * reflect_pad y n2 i2 j2 k2) n i j k
      - ssim_mu x n i j k * ssim_mu y n i j k

/-- Numerator `ssim_n` of `Losses.__ssim`. -/
def ssim_num {b h w c : ℕ} (x y : Tensor ℚ b (h + 2) (w + 2) c) :
    Tensor ℚ b (h + 2) (w + 2) c :=
  fun n i j k =>
    (2 * ssim_mu x n i j k * ssim_mu y n i j k + ssim_c1)
      * (2 * ssim_sigma_xy x y n i j k + ssim_c2)

/-- Denominator `ssim_d` of `Losses.__ssim`. -/
def ssim_den {b h w c : ℕ} (x y : Tensor ℚ b (h + 2) (w + 2) c) :
    Tensor ℚ b (h + 2) (w + 2) c :=
  fun n i j k =>
    (ssim_mu x n i j k ^ 2 + ssim_mu y n i j k ^ 2 + ssim_c1)
      * (ssim_sigma x n i j k + ssim_sigma y n i j k + ssim_c2)

/-- Embeds `Losses.__ssim(x, y)`: the per-pixel SSIM dissimilarity map
`K.clip((1 - ssim) / 2, 0, 1)`. -/
def ssim {b h w c : ℕ} (x y : Tensor ℚ b (h + 2) (w + 2) c) :
    Tensor ℚ b (h + 2) (w + 2) c :=
  fun n i j k =>
    Kclip ((1 - ssim_num x y n i j k / ssim_den x y n i j k) / 2) 0 1

/-! ## Reprojection loss (custom_modules.py, lines 107-158) -/

/-- Embeds `K.mean(K.abs(y_true - t), axis=-1, keepdims=True)`: the
per-pixel mean absolute difference across channels.  The kept channel
axis of size 1 is dropped; the broadcast against per-channel maps is made
explicit at the use sites. -/
def mae {b h w c : ℕ} (y_true t : Tensor ℚ b h w c)
    (n : Fin b) (i : Fin h) (j : Fin w) : ℚ :=
  (∑ k : Fin c, |y_true n i j k - t n i j k|) / (c : ℚ)

/-- Channels 0-2 of a 12-channel `y_pred`: `y_pred[:,:,:,:3]`. -/
def prev_frame {b h w : ℕ} (y_pred : Tensor ℚ b h w 12) : Tensor ℚ b h w 3 :=
  fun n i j k => y_pred n i j ⟨(k : ℕ), by have := k.isLt; omega⟩

/-- Channels 3-5 of a 12-channel `y_pred`: `y_pred[:,:,:,3:6]`. -/
def next_frame {b h w : ℕ} (y_pred : Tensor ℚ b h w 12) : Tensor ℚ b h w 3 :=
  fun n i j k => y_pred n i j ⟨(k : ℕ) + 3, by have := k.isLt; omega⟩

/-- Channels 6-8 of a 12-channel `y_pred`: `y_pred[:,:,:,6:9]`. -/
def reprojection_prev {b h w : ℕ} (y_pred : Tensor ℚ b h w 12) :
    Tensor ℚ b h w 3 :=
  fun n i j k => y_pred n i j ⟨(k : ℕ) + 6, by have := k.isLt; omega⟩

/-- Channels 9-11 of a 12-channel `y_pred`: `y_pred[:,:,:,9:12]`. -/
def reprojection_next {b h w : ℕ} (y_pred : Tensor ℚ b h w 12) :
    Tensor ℚ b h w 3 :=
  fun n i j k => y_pred n i j ⟨(k : ℕ) + 9, by have := k.isLt; omega⟩

/-- Default value of the `alpha` parameter of `Losses.reprojection_loss`
(`alpha=0.85` in the Python signature). -/
def ALPHA_DEFAULT : ℚ := 0.85

/-- Default value of the `masking` parameter of
`Losses.reprojection_loss` (`masking=True` in the Python signature). -/
def MASKING_DEFAULT : Bool := true

/-- Embeds the inner function `reprojection_loss_keras(y_true, y_pred)`
returned by `Losses.reprojection_loss(alpha, masking)`.  `y_pred` holds
`[prev_frame, next_frame, reprojection_prev, reprojection_next]` along
the channel axis.  The per-channel SSIM map and the channel-reduced MAE
map are blended by broadcasting, and when `masking` is set the loss is
multiplied by the 0/1 cast of the mask `reprojection_loss < source_loss`,
exactly as in the code. -/
def reprojection_loss_keras {b h w : ℕ} (alpha : ℚ) (masking : Bool)
    (y_true : Tensor ℚ b (h + 2) (w + 2) 3)
    (y_pred : Tensor ℚ b (h + 2) (w + 2) 12) :
    Tensor ℚ b (h + 2) (w + 2) 3 :=
  fun n i j k =>
    let scale_min_mae :=
      min (mae y_true (reprojection_prev y_pred) n i j)
          (mae y_true (reprojection_next y_pred) n i j)
    let scale_min_ssim :=
      min (ssim y_true (reprojection_prev y_pred) n i j k)
          (ssim y_true (reprojection_next y_pred) n i j k)
    let reprojection_loss := alpha * scale_min_ssim + (1 - alpha) * scale_min_mae
    if masking then
      let source_min_mae :=
        min (mae y_true (prev_frame y_pred) n i j)
            (mae y_true (next_frame y_pred) n i j)
      let source_min_ssim :=
        min (ssim y_true (prev_frame y_pred) n i j k)
            (ssim y_true (next_frame y_pred) n i j k)
      let source_loss := alpha * source_min_ssim + (1 - alpha) * source_min_mae
      reprojection_loss * (if reprojection_loss < source_loss then 1 else 0)
    else
      reprojection_loss

/-- Swaps the two source frames together with their reprojections in a
12-channel `y_pred`: produces the layout
`[next_frame, prev_frame, reprojection_next, reprojection_prev]`. -/
def swap_sources {b h w : ℕ} (y_pred : Tensor ℚ b h w 12) :
    Tensor ℚ b h w 12 :=
  fun n i j k =>
    if h36 : (k : ℕ) % 6 < 3 then
      y_pred n i j ⟨(k : ℕ) + 3, by have := k.isLt; omega⟩
    else
      y_pred n i j ⟨(k : ℕ) - 3, by have := k.isLt; omega⟩

/-! ## Depth smoothness loss (custom_modules.py, lines 161-221)

This loss uses `tf.exp`, so it is embedded over an arbitrary linear
ordered field with the exponential passed as a parameter; the theorems
instantiate the field with `ℝ` and the parameter with `Real.exp`. -/

/-- Embeds `Losses.__gradient_x(img) = img[:, :, :-1, :] - img[:, :, 1:, :]`:
first-order forward difference along the width axis. -/
def gradient_x {α : Type} [LinearOrderedField α] {b h w c : ℕ}
    (img : Tensor α b h (w + 1) c) : Tensor α b h w c :=
  fun n i j k => img n i (Fin.castSucc j) k - img n i (Fin.succ j) k

/-- Embeds `Losses.__gradient_y(img) = img[:, :-1, :, :] - img[:, 1:, :, :]`:
first-order forward difference along the height axis. -/
def gradient_y {α : Type} [LinearOrderedField α] {b h w c : ℕ}
    (img : Tensor α b (h + 1) w c) : Tensor α b h w c :=
  fun n i j k => img n (Fin.castSucc i) j k - img n (Fin.succ i) j k

/-- Embeds `tf.reduce_mean(t)` over all four axes. -/
def reduce_mean_all {α : Type} [LinearOrderedField α] {b h w c : ℕ}
    (t : Tensor α b h w c) : α :=
  (∑ n, ∑ i, ∑ j, ∑ k, t n i j k) / ((b * h * w * c : ℕ) : α)

/-- Embeds `tf.reduce_mean(t, axis=[1,2,3], keepdims=True)` read at batch
index `n`: the per-sample mean over height, width and channels. -/
def sample_mean {α : Type} [LinearOrderedField α] {b h w c : ℕ}
    (t : Tensor α b h w c) (n : Fin b) : α :=
  (∑ i, ∑ j, ∑ k, t n i j k) / ((h * w * c : ℕ) : α)

/-- The epsilon `1e-7` added to the per-sample mean in
`Losses.depth_smoothness`. -/
def SMOOTHNESS_EPS (α : Type) [LinearOrderedField α] : α := 1 / 10000000

/-- Embeds the inner function `depth_smoothness_keras(y_true, y_pred)`
returned by `Losses.depth_smoothness()`, parametrically in the
exponential `exp_fn` (instantiated with `Real.exp` in the theorems):
`y_pred` is normalized by its per-sample mean plus `1e-7`, forward
differences are taken on the normalized depth and on the image, the
image differences are reduced across channels by mean absolute value
into exponential weights, and the scalar result is the sum of the means
of the absolute weighted terms of the two axes. -/
def depth_smoothness_keras {α : Type} [LinearOrderedField α] (exp_fn : α → α)
    {b h w ci cd : ℕ}
    (y_true : Tensor α b (h + 1) (w + 1) ci)
    (y_pred : Tensor α b (h + 1) (w + 1) cd) : α :=
  let inverse_depth : Tensor α b (h + 1) (w + 1) cd :=
    fun n i j k => y_pred n i j k / (sample_mean y_pred n + SMOOTHNESS_EPS α)
  let inverse_depth_dx := gradient_x inverse_depth
  let inverse_depth_dy := gradient_y inverse_depth
  let image_dx := gradient_x y_true
  let image_dy := gradient_y y_true
  let weights_x : Fin b → Fin (h + 1) → Fin w → α :=
    fun n i j => exp_fn (-((∑ k, |image_dx n i j k|) / (ci : α)))
  let weights_y : Fin b → Fin h → Fin (w + 1) → α :=
    fun n i j => exp_fn (-((∑ k, |image_dy n i j k|) / (ci : α)))
  let smoothness_x : Tensor α b (h + 1) w cd :=
    fun n i j k => inverse_depth_dx n i j k * weights_x n i j
  let smoothness_y : Tensor α b h (w + 1) cd :=
    fun n i j k => inverse_depth_dy n i j k * weights_y n i j
  reduce_mean_all (fun n i j k => |smoothness_x n i j k|)
    + reduce_mean_all (fun n i j k => |smoothness_y n i j k|)

/-! ## ProjectionLayer (custom_modules.py, lines 8-47)

The `inverse_warp` routine lives in `project.py`, which is outside this
repository slice; the layer is therefore embedded parametrically in the
warping routine it calls. -/

/-- 3x3 rational matrix, as a plain function of its indices. -/
def Mat3 : Type := Fin 3 → Fin 3 → ℚ

/-- Determinant of a 3x3 matrix, written out by cofactor expansion
(the exact singularity test behind `np.linalg.inv`). -/
def det3 (M : Mat3) : ℚ :=
  M 0 0 * M 1 1 * M 2 2 - M 0 0 * M 1 2 * M 2 1 - M 0 1 * M 1 0 * M 2 2
    + M 0 1 * M 1 2 * M 2 0 + M 0 2 * M 1 0 * M 2 1 - M 0 2 * M 1 1 * M 2 0

/-- Adjugate (transposed cofactor matrix) of a 3x3 matrix, written out
entrywise. -/
def adj3 (M : Mat3) : Mat3 :=
  fun i j =>
    if i = 0 then
      if j = 0 then M 1 1 * M 2 2 - M 1 2 * M 2 1
      else if j = 1 then M 0 2 * M 2 1 - M 0 1 * M 2 2
      else M 0 1 * M 1 2 - M 0 2 * M 1 1
    else if i = 1 then
      if j = 0 then M 1 2 * M 2 0 - M 1 0 * M 2 2
      else if j = 1 then M 0 0 * M 2 2 - M 0 2 * M 2 0
      else M 0 2 * M 1 0 - M 0 0 * M 1 2
    else
      if j = 0 then M 1 0 * M 2 1 - M 1 1 * M 2 0
      else if j = 1 then M 0 1 * M 2 0 - M 0 0 * M 2 1
      else M 0 0 * M 1 1 - M 0 1 * M 1 0

/-- Inverse of a 3x3 matrix by the adjugate formula. -/
def inv3 (M : Mat3) : Mat3 :=
  fun i j => adj3 M i j / det3 M

/-- 3x3 matrix product. -/
def mat_mul (A B : Mat3) : Mat3 :=
  fun i j => ∑ k : Fin 3, A i k * B k j

/-- 3x3 identity matrix. -/
def one3 : Mat3 :=
  fun i j => if i = j then 1 else 0

/-- Embeds `np.linalg.inv`: returns the inverse of the matrix, raising
`LinAlgError` (modelled as `Except.error`) exactly when the matrix is
singular, i.e. when its determinant is zero. -/
def np_linalg_inv (M : Mat3) : Except String Mat3 :=
  if det3 M = 0 then Except.error "Singular matrix" else Except.ok (inv3 M)

/-- State stored on a constructed `ProjectionLayer`: the pose scaling
constant, the intrinsics matrix and its cached inverse. -/
structure ProjectionLayerState where
  POSE_SCALING : ℚ
  intrinsics_mat : Mat3
  intrinsics_mat_inv : Mat3

/-- The default intrinsics matrix `[[1,0,0.5],[0,1,0.5],[0,0,1]]` used by
`ProjectionLayer.__init__` when no matrix is supplied. -/
def DEFAULT_INTRINSICS : Mat3 :=
  fun i j => if i = j then 1 else if (j : ℕ) = 2 then 1 / 2 else 0

/-- Embeds `ProjectionLayer.__init__(intrinsics_mat)`: sets
`POSE_SCALING = 0.01`, selects the supplied matrix (or the default one),
and computes `np.linalg.inv` of it, which can raise at construction
time. -/
def ProjectionLayer.init (intrinsics_mat : Option Mat3) :
    Except String ProjectionLayerState :=
  let M := intrinsics_mat.getD DEFAULT_INTRINSICS
  match np_linalg_inv M with
  | Except.error e => Except.error e
  | Except.ok Minv =>
      Except.ok { POSE_SCALING := 0.01, intrinsics_mat := M,
                  intrinsics_mat_inv := Minv }

/-- Embeds `ProjectionLayer.call(x)` parametrically in the
`inverse_warp` routine of `project.py`: the input triple is unpacked,
the pose is multiplied by `self.POSE_SCALING`, `inverse_warp` is called
on the source image, the depth map, the scaled pose and the two cached
intrinsics matrices, and the first component of its result is
returned. -/
def ProjectionLayer.call {Img Dep Coords : Type}
    (inverse_warp : Img → Dep → (Fin 6 → ℚ) → Mat3 → Mat3 → Img × Coords)
    (s : ProjectionLayerState) (x : Img × Dep × (Fin 6 → ℚ)) : Img :=
  let source_img := x.1
  let depth_map := x.2.1
  let pose : Fin 6 → ℚ := fun t => x.2.2 t * s.POSE_SCALING
  (inverse_warp source_img depth_map pose
    s.intrinsics_mat s.intrinsics_mat_inv).1

/-! ## The /predict handler (food_volume_estimation_app.py, lines 60-106)

The image decoding pipeline (`base64.b64decode`, `np.frombuffer`,
`cv2.imdecode`, `cv2.cvtColor`) and the volume estimator are external
collaborators; they are embedded as parameters.  A request field that is
only ever passed to `float(...)` is embedded by the outcome of that
conversion. -/

/-- Result of the Flask handler: either `abort(code)` or a JSON response
with a status code and the volumes list. -/
inductive HttpResult where
  | aborted (code : ℕ) : HttpResult
  | ok (code : ℕ) (volumes : List ℚ) : HttpResult

/-- Decoded JSON body of a `/predict` request.  `img` is the base64
payload when present.  `plate_diameter` is `none` when the field is
absent (reading the key raises `KeyError`), `some none` when
it is present but `float(...)` raises, and `some (some q)` when
`float(...)` returns `q`.  `fov` is the value of `content.get("fov", 70)`
when present. -/
structure PredictRequest where
  img : Option String
  plate_diameter : Option (Option ℚ)
  fov : Option ℚ

/-- Embeds the `volume_estimation` view function: decode the image
(aborting with 406 when the key is missing or decoding raises), fall
back to `plate_diameter = 0` when the field is absent or not
convertible, call the estimator with `fov` defaulting to 70, convert the
volumes to mL by multiplying with `1e6`, and answer 200 with the volumes
list. -/
def volume_estimation {Img : Type} (decode_img : String → Option Img)
    (estimate_volume : Img → ℚ → ℚ → List ℚ) (content : PredictRequest) :
    HttpResult :=
  match content.img.bind decode_img with
  | none => HttpResult.aborted 406
  | some img =>
      let plate_diameter : ℚ :=
        match content.plate_diameter with
        | none => 0
        | some none => 0
        | some (some q) => q
      let volumes := estimate_volume img (content.fov.getD 70) plate_diameter
      HttpResult.ok 200 (volumes.map (fun v => v * 1000000))

/-! ## Concrete instances used by the witnesses -/

/-- The layer state produced by `ProjectionLayer.__init__(None)`. -/
def S0 : ProjectionLayerState :=
  { POSE_SCALING := 0.01, intrinsics_mat := DEFAULT_INTRINSICS,
    intrinsics_mat_inv := inv3 DEFAULT_INTRINSICS }

/-- A probe warping routine that returns the pose it is handed. -/
def probe_warp : (Fin 6 → ℚ) → Unit → (Fin 6 → ℚ) → Mat3 → Mat3 →
    (Fin 6 → ℚ) × Unit :=
  fun _ _ pose _ _ => (pose, ())

/-- A probe input triple for `ProjectionLayer.call`. -/
def X0 : (Fin 6 → ℚ) × Unit × (Fin 6 → ℚ) :=
  (fun _ => 0, (), fun _ => 2)

/-- A probe request whose `plate_diameter` field is present but not
convertible to a float. -/
def REQ0 : PredictRequest :=
  { img := some "x", plate_diameter := some none, fov := none }

/-! ## Theorems -/

/-- C1 (counterexample): at `min_depth = 1`, `max_depth = 2` and raw
disparity `x = 0` — which lies in the closed interval `[0, 1]` — the
layer returns exactly `max_depth`, so the strict upper bound
`depth < max_depth` claimed for every `x` in `[0, 1]` fails. -/
theorem idn_strict_bounds_fail_at_endpoint :
    (0 : ℚ) < 1 ∧ (1 : ℚ) < 2 ∧ (0 : ℚ) ≤ 0 ∧ (0 : ℚ) ≤ 1 ∧
      (InverseDepthNormalization.init 1 2).call 0 = 2 ∧
      ¬ ((InverseDepthNormalization.init 1 2).call 0 < 2) := by
  norm_num [InverseDepthNormalization.init, InverseDepthNormalization.call]

/-- C1 (amended): for `0 < min_depth < max_depth` and raw disparity `x`
in `[0, 1]`, `InverseDepthNormalization.call` returns
`1 / (1/max_depth + (1/min_depth - 1/max_depth) * x)`; this depth
satisfies the closed bounds `min_depth ≤ depth ≤ max_depth`, the bounds
are strict for `x` in the open interval `(0, 1)`, and at the endpoints
`call 0 = max_depth` and `call 1 = min_depth` exactly. -/
theorem idn_call_formula_and_bounds (min_depth max_depth x : ℚ)
    (hmin : 0 < min_depth) (hlt : min_depth < max_depth)
    (hx0 : 0 ≤ x) (hx1 : x ≤ 1) :
    (InverseDepthNormalization.init min_depth max_depth).call x
        = 1 / (1 / max_depth + (1 / min_depth - 1 / max_depth) * x) ∧
      min_depth ≤ (InverseDepthNormalization.init min_depth max_depth).call x ∧
      (InverseDepthNormalization.init min_depth max_depth).call x ≤ max_depth ∧
      (0 < x → x < 1 →
        min_depth < (InverseDepthNormalization.init min_depth max_depth).call x ∧
        (InverseDepthNormalization.init min_depth max_depth).call x < max_depth) ∧
      (InverseDepthNormalization.init min_depth max_depth).call 0 = max_depth ∧
      (InverseDepthNormalization.init min_depth max_depth).call 1 = min_depth := by
  have hmax : 0 < max_depth := hmin.trans hlt
  have hdisp : 1 / max_depth < 1 / min_depth := one_div_lt_one_div_of_lt hmin hlt
  have hdpos : 0 < 1 / min_depth - 1 / max_depth := sub_pos.mpr hdisp
  have hcall : ∀ t : ℚ,
      (InverseDepthNormalization.init min_depth max_depth).call t
        = 1 / (1 / max_depth + (1 / min_depth - 1 / max_depth) * t) :=
    fun t => rfl
  have hprod0 : 0 ≤ (1 / min_depth - 1 / max_depth) * x := mul_nonneg hdpos.le hx0
  have hD_lb : 1 / max_depth
      ≤ 1 / max_depth + (1 / min_depth - 1 / max_depth) * x := by linarith
  have hD_ub : 1 / max_depth + (1 / min_depth - 1 / max_depth) * x
      ≤ 1 / min_depth := by
    have h2 : (1 / min_depth - 1 / max_depth) * x
        ≤ (1 / min_depth - 1 / max_depth) * 1 :=
      mul_le_mul_of_nonneg_left hx1 hdpos.le
    linarith
  have hD_pos : 0 < 1 / max_depth + (1 / min_depth - 1 / max_depth) * x :=
    lt_of_lt_of_le (one_div_pos.mpr hmax) hD_lb
  refine ⟨hcall x, ?_, ?_, ?_, ?_, ?_⟩
  · rw [hcall x]
    calc min_depth = 1 / (1 / min_depth) := (one_div_one_div min_depth).symm
    _ ≤ 1 / (1 / max_depth + (1 / min_depth - 1 / max_depth) * x) :=
        one_div_le_one_div_of_le hD_pos hD_ub
  · rw [hcall x]
    calc 1 / (1 / max_depth + (1 / min_depth - 1 / max_depth) * x)
        ≤ 1 / (1 / max_depth) :=
          one_div_le_one_div_of_le (one_div_pos.mpr hmax) hD_lb
    _ = max_depth := one_div_one_div max_depth
  · intro hx0s hx1s
    have hD_lbs : 1 / max_depth
        < 1 / max_depth + (1 / min_depth - 1 / max_depth) * x := by
      have h3 : 0 < (1 / min_depth - 1 / max_depth) * x := mul_pos hdpos hx0s
      linarith
    have hD_ubs : 1 / max_depth + (1 / min_depth - 1 / max_depth) * x
        < 1 / min_depth := by
      have h4 : (1 / min_depth - 1 / max_depth) * x
          < (1 / min_depth - 1 / max_depth) * 1 :=
        (mul_lt_mul_left hdpos).mpr hx1s
      linarith
    constructor
    · rw [hcall x]
      calc min_depth = 1 / (1 / min_depth) := (one_div_one_div min_depth).symm
      _ < 1 / (1 / max_depth + (1 / min_depth - 1 / max_depth) * x) :=
          one_div_lt_one_div_of_lt hD_pos hD_ubs
    · rw [hcall x]
      calc 1 / (1 / max_depth + (1 / min_depth - 1 / max_depth) * x)
          < 1 / (1 / max_depth) :=
            one_div_lt_one_div_of_lt (one_div_pos.mpr hmax) hD_lbs
      _ = max_depth := one_div_one_div max_depth
  · rw [hcall 0, mul_zero, add_zero, one_div_one_div]
  · rw [hcall 1]
    have h5 : 1 / max_depth + (1 / min_depth - 1 / max_depth) * 1
        = 1 / min_depth := by ring
    rw [h5, one_div_one_div]

/-- Witness for the amended C1 at `min_depth = 1`, `max_depth = 2`,
`x = 1/2`. -/
theorem idn_call_formula_and_bounds_witness :
    ((0 : ℚ) < 1 ∧ (1 : ℚ) < 2 ∧ (0 : ℚ) ≤ 1 / 2 ∧ (1 / 2 : ℚ) ≤ 1) ∧
      ((InverseDepthNormalization.init 1 2).call (1 / 2)
          = 1 / (1 / 2 + (1 / 1 - 1 / 2) * (1 / 2)) ∧
        1 ≤ (InverseDepthNormalization.init 1 2).call (1 / 2) ∧
        (InverseDepthNormalization.init 1 2).call (1 / 2) ≤ 2 ∧
        (0 < (1 / 2 : ℚ) → (1 / 2 : ℚ) < 1 →
          1 < (InverseDepthNormalization.init 1 2).call (1 / 2) ∧
          (InverseDepthNormalization.init 1 2).call (1 / 2) < 2) ∧
        (InverseDepthNormalization.init 1 2).call 0 = 2 ∧
        (InverseDepthNormalization.init 1 2).call 1 = 1) :=
  ⟨⟨by norm_num, by norm_num, by norm_num, by norm_num⟩,
    idn_call_formula_and_bounds 1 2 (1 / 2) (by norm_num) (by norm_num)
      (by norm_num) (by norm_num)⟩

/-- C7: for every depth `d` strictly between `min_depth` and
`max_depth` (with `0 < min_depth`), converting `d` to a raw disparity by
the inverse affine-then-reciprocal map
`raw = (1/d - 1/max_depth) / (1/min_depth - 1/max_depth)` and feeding it
back through `InverseDepthNormalization.call` returns `d` exactly. -/
theorem idn_round_trip (min_depth max_depth d : ℚ) (hmin : 0 < min_depth)
    (hd1 : min_depth < d) (hd2 : d < max_depth) :
    (InverseDepthNormalization.init min_depth max_depth).call
        ((1 / d - 1 / max_depth) / (1 / min_depth - 1 / max_depth)) = d := by
  have hdisp : 1 / max_depth < 1 / min_depth :=
    one_div_lt_one_div_of_lt hmin (hd1.trans hd2)
  have hden : 1 / min_depth - 1 / max_depth ≠ 0 := ne_of_gt (sub_pos.mpr hdisp)
  show 1 / (1 / max_depth + (1 / min_depth - 1 / max_depth) *
      ((1 / d - 1 / max_depth) / (1 / min_depth - 1 / max_depth))) = d
  rw [mul_comm (1 / min_depth - 1 / max_depth), div_mul_cancel₀ _ hden]
  have h6 : 1 / max_depth + (1 / d - 1 / max_depth) = 1 / d := by ring
  rw [h6, one_div_one_div]

/-- Witness for C7 at `min_depth = 1`, `max_depth = 100`, `d = 2`. -/
theorem idn_round_trip_witness :
    ((0 : ℚ) < 1 ∧ (1 : ℚ) < 2 ∧ (2 : ℚ) < 100) ∧
      (InverseDepthNormalization.init 1 100).call
        ((1 / 2 - 1 / 100) / (1 / 1 - 1 / 100)) = 2 :=
  ⟨⟨by norm_num, by norm_num, by norm_num⟩,
    idn_round_trip 1 100 2 (by norm_num) (by norm_num) (by norm_num)⟩

/-- Cauchy-Schwarz for a 3x3 window: the square of the sum of nine values
is at most nine times the sum of their squares. -/
theorem sum9_sq_le (f : Fin 3 → Fin 3 → ℚ) :
    (∑ d : Fin 3, ∑ e : Fin 3, f d e) ^ 2
      ≤ 9 * ∑ d : Fin 3, ∑ e : Fin 3, f d e ^ 2 := by
  have h : (∑ p : Fin 3 × Fin 3, f p.1 p.2) ^ 2
      ≤ ((Finset.univ : Finset (Fin 3 × Fin 3)).card : ℚ)
        * ∑ p : Fin 3 × Fin 3, f p.1 p.2 ^ 2 := sq_sum_le_card_mul_sum_sq
  simpa [Fintype.sum_prod_type, Finset.card_univ] using h

/-- The local 3x3 variance computed by `Losses.__ssim` is nonnegative. -/
theorem ssim_sigma_nonneg {b h w c : ℕ} (x : Tensor ℚ b (h + 2) (w + 2) c)
    (n : Fin b) (i : Fin (h + 2)) (j : Fin (w + 2)) (k : Fin c) :
    0 ≤ ssim_sigma x n i j k := by
  have key : ∀ g : Fin 3 → Fin 3 → ℚ,
      0 ≤ (∑ d : Fin 3, ∑ e : Fin 3, g d e ^ 2) / 9
        - ((∑ d : Fin 3, ∑ e : Fin 3, g d e) / 9) ^ 2 := by
    intro g
    have h9 := sum9_sq_le g
    have e1 : ((∑ d : Fin 3, ∑ e : Fin 3, g d e) / 9) ^ 2
        = (∑ d : Fin 3, ∑ e : Fin 3, g d e) ^ 2 / 81 := by ring
    rw [e1]
    linarith
  exact key (fun d e =>
    reflect_pad x n ⟨(i : ℕ) + (d : ℕ), by have := i.isLt; have := d.isLt; omega⟩
      ⟨(j : ℕ) + (e : ℕ), by have := j.isLt; have := e.isLt; omega⟩ k)

/-- C5: the SSIM dissimilarity of any image with itself is 0 at every
pixel and channel. -/
theorem ssim_self_dissimilarity_zero {b h w c : ℕ}
    (x : Tensor ℚ b (h + 2) (w + 2) c) :
    ∀ (n : Fin b) (i : Fin (h + 2)) (j : Fin (w + 2)) (k : Fin c),
      ssim x x n i j k = 0 := by
  intro n i j k
  have hσ : 0 ≤ ssim_sigma x n i j k := ssim_sigma_nonneg x n i j k
  have hxy : ssim_sigma_xy x x n i j k = ssim_sigma x n i j k := by
    simp only [ssim_sigma_xy, ssim_sigma, ← pow_two]
  have hnd : ssim_num x x n i j k = ssim_den x x n i j k := by
    simp only [ssim_num, ssim_den, hxy]
    ring
  have hc2 : (0 : ℚ) < ssim_c2 := by norm_num [ssim_c2]
  have hden : 0 < ssim_den x x n i j k := by
    simp only [ssim_den]
    have h1 : 0 < ssim_mu x n i j k ^ 2 + ssim_mu x n i j k ^ 2 + ssim_c1 := by
      have : (0 : ℚ) < ssim_c1 := by norm_num [ssim_c1]
      nlinarith [sq_nonneg (ssim_mu x n i j k)]
    have h2 : 0 < ssim_sigma x n i j k + ssim_sigma x n i j k + ssim_c2 := by
      linarith
    exact mul_pos h1 h2
  show Kclip ((1 - ssim_num x x n i j k / ssim_den x x n i j k) / 2) 0 1 = 0
  rw [hnd, div_self (ne_of_gt hden)]
  norm_num [Kclip]

/-- Multiplying by the 0/1 cast of a boolean mask is selecting with the
mask. -/
theorem mul_mask_ite (a : ℚ) (P : Prop) [Decidable P] :
    a * (if P then (1 : ℚ) else 0) = if P then a else 0 := by
  split <;> simp

/-- C3: with masking disabled, the reprojection loss is, at every pixel
and channel, `alpha * min(ssim_prev, ssim_next) +
(1 - alpha) * min(mae_prev, mae_next)`, where each mae is the mean
absolute difference across the three channels between the target and the
corresponding reprojection and each ssim is the SSIM dissimilarity
against the corresponding reprojection; the default of `alpha` is
0.85. -/
theorem reprojection_unmasked_formula :
    (∀ (b h w : ℕ) (alpha : ℚ) (y_true : Tensor ℚ b (h + 2) (w + 2) 3)
        (y_pred : Tensor ℚ b (h + 2) (w + 2) 12) (n : Fin b)
        (i : Fin (h + 2)) (j : Fin (w + 2)) (k : Fin 3),
      reprojection_loss_keras alpha false y_true y_pred n i j k
        = alpha * min (ssim y_true (reprojection_prev y_pred) n i j k)
              (ssim y_true (reprojection_next y_pred) n i j k)
          + (1 - alpha)
            * min
              ((∑ t : Fin 3,
                |y_true n i j t - reprojection_prev y_pred n i j t|) / 3)
              ((∑ t : Fin 3,
                |y_true n i j t - reprojection_next y_pred n i j t|) / 3)) ∧
    ALPHA_DEFAULT = 85 / 100 := by
  constructor
  · intro b h w alpha y_true y_pred n i j k
    simp only [reprojection_loss_keras, mae, Bool.false_eq_true, if_false,
      Nat.cast_ofNat]
  · norm_num [ALPHA_DEFAULT]

/-- C4: with masking enabled, the reprojection loss equals the unmasked
blended loss at exactly those pixels where that loss is strictly smaller
than the identical blended metric computed from the un-warped source
frames against the target, and equals 0 at every other pixel. -/
theorem reprojection_masked_formula :
    ∀ (b h w : ℕ) (alpha : ℚ) (y_true : Tensor ℚ b (h + 2) (w + 2) 3)
        (y_pred : Tensor ℚ b (h + 2) (w + 2) 12) (n : Fin b)
        (i : Fin (h + 2)) (j : Fin (w + 2)) (k : Fin 3),
      reprojection_loss_keras alpha true y_true y_pred n i j k
        = if reprojection_loss_keras alpha false y_true y_pred n i j k
              < alpha * min (ssim y_true (prev_frame y_pred) n i j k)
                    (ssim y_true (next_frame y_pred) n i j k)
                + (1 - alpha) * min (mae y_true (prev_frame y_pred) n i j)
                    (mae y_true (next_frame y_pred) n i j)
          then reprojection_loss_keras alpha false y_true y_pred n i j k
          else 0 := by
  intro b h w alpha y_true y_pred n i j k
  simp only [reprojection_loss_keras, Bool.false_eq_true, if_false, if_true]
  rw [mul_mask_ite]

/-- Reading the reprojection-from-prev slice of the swapped layout gives
the reprojection-from-next slice of the original layout. -/
theorem reprojection_prev_swap {b h w : ℕ} (y : Tensor ℚ b h w 12) :
    reprojection_prev (swap_sources y) = reprojection_next y := by
  funext n i j k
  have hk := k.isLt
  simp only [reprojection_prev, reprojection_next, swap_sources]
  rw [dif_pos (show ((⟨(k : ℕ) + 6, by omega⟩ : Fin 12) : ℕ) % 6 < 3 by
    simp only [Fin.val_mk]
    omega)]

/-- Reading the reprojection-from-next slice of the swapped layout gives
the reprojection-from-prev slice of the original layout. -/
theorem reprojection_next_swap {b h w : ℕ} (y : Tensor ℚ b h w 12) :
    reprojection_next (swap_sources y) = reprojection_prev y := by
  funext n i j k
  have hk := k.isLt
  simp only [reprojection_prev, reprojection_next, swap_sources]
  rw [dif_neg (show ¬ ((⟨(k : ℕ) + 9, by omega⟩ : Fin 12) : ℕ) % 6 < 3 by
    simp only [Fin.val_mk]
    omega)]
  apply congrArg
  apply Fin.ext
  show (k : ℕ) + 9 - 3 = (k : ℕ) + 6
  omega

/-- C6: with masking disabled, swapping the two source frames together
with their reprojections in `y_pred` leaves the per-pixel reprojection
loss map unchanged. -/
theorem reprojection_swap_invariant :
    ∀ (b h w : ℕ) (alpha : ℚ) (y_true : Tensor ℚ b (h + 2) (w + 2) 3)
        (y_pred : Tensor ℚ b (h + 2) (w + 2) 12),
      reprojection_loss_keras alpha false y_true (swap_sources y_pred)
        = reprojection_loss_keras alpha false y_true y_pred := by
  intro b h w alpha y_true y_pred
  funext n i j k
  simp only [reprojection_loss_keras, Bool.false_eq_true, if_false,
    reprojection_prev_swap, reprojection_next_swap]
  rw [min_comm (ssim y_true (reprojection_next y_pred) n i j k)
      (ssim y_true (reprojection_prev y_pred) n i j k),
    min_comm (mae y_true (reprojection_next y_pred) n i j)
      (mae y_true (reprojection_prev y_pred) n i j)]

/-- C2: the depth smoothness loss is one scalar, namely the per-axis mean
over all pixels of the weighted smoothness terms
`|depth_gradient| * exp(-|image_gradient|)` summed over the two spatial
axes, where the depth is first normalized by its per-sample spatial mean
plus `1e-7`, the gradients are first-order forward differences, and the
image gradient is reduced across channels by mean absolute value. -/
theorem depth_smoothness_weighted_mean {b h w ci cd : ℕ}
    (y_true : Tensor ℝ b (h + 1) (w + 1) ci)
    (y_pred : Tensor ℝ b (h + 1) (w + 1) cd) :
    depth_smoothness_keras Real.exp y_true y_pred
      = (∑ n, ∑ i, ∑ j, ∑ k,
            |gradient_x (fun n2 i2 j2 k2 => y_pred n2 i2 j2 k2
                / (sample_mean y_pred n2 + SMOOTHNESS_EPS ℝ)) n i j k|
              * Real.exp
                (-((∑ t, |gradient_x y_true n i j t|) / (ci : ℝ))))
          / ((b * (h + 1) * w * cd : ℕ) : ℝ)
        + (∑ n, ∑ i, ∑ j, ∑ k,
            |gradient_y (fun n2 i2 j2 k2 => y_pred n2 i2 j2 k2
                / (sample_mean y_pred n2 + SMOOTHNESS_EPS ℝ)) n i j k|
              * Real.exp
                (-((∑ t, |gradient_y y_true n i j t|) / (ci : ℝ))))
          / ((b * h * (w + 1) * cd : ℕ) : ℝ) := by
  simp only [depth_smoothness_keras, reduce_mean_all, abs_mul, Real.abs_exp]

/-- C9: constructing a `ProjectionLayer` on a supplied intrinsics matrix
raises exactly when the matrix is singular (zero determinant); for every
matrix with nonzero determinant, construction succeeds and stores the
matrix together with its two-sided inverse, computed once at
construction time. -/
theorem projection_layer_init_spec :
    ∀ K : Mat3,
      (ProjectionLayer.init (some K) = Except.error "Singular matrix"
          ↔ det3 K = 0) ∧
      (det3 K ≠ 0 →
        ProjectionLayer.init (some K)
            = Except.ok { POSE_SCALING := 0.01, intrinsics_mat := K,
                          intrinsics_mat_inv := inv3 K } ∧
          mat_mul (inv3 K) K = one3 ∧ mat_mul K (inv3 K) = one3) := by
  intro K
  constructor
  · constructor
    · intro hinit
      by_contra hdet
      simp [ProjectionLayer.init, np_linalg_inv, hdet] at hinit
    · intro hdet
      simp [ProjectionLayer.init, np_linalg_inv, hdet]
  · intro hdet
    have hdet2 : K 0 0 * K 1 1 * K 2 2 - K 0 0 * K 1 2 * K 2 1
        - K 0 1 * K 1 0 * K 2 2 + K 0 1 * K 1 2 * K 2 0
        + K 0 2 * K 1 0 * K 2 1 - K 0 2 * K 1 1 * K 2 0 ≠ 0 := by
      simpa [det3] using hdet
    refine ⟨by simp [ProjectionLayer.init, np_linalg_inv, hdet], ?_, ?_⟩
    · funext i j
      fin_cases i <;> fin_cases j <;>
        · simp [mat_mul, inv3, adj3, one3, det3, Fin.sum_univ_three]
          field_simp
          ring
    · funext i j
      fin_cases i <;> fin_cases j <;>
        · simp [mat_mul, inv3, adj3, one3, det3, Fin.sum_univ_three]
          field_simp
          ring

/-- Witness for C9 at the identity intrinsics matrix. -/
theorem projection_layer_init_spec_witness :
    det3 one3 ≠ 0 ∧
      (ProjectionLayer.init (some one3)
          = Except.ok { POSE_SCALING := 0.01, intrinsics_mat := one3,
                        intrinsics_mat_inv := inv3 one3 } ∧
        mat_mul (inv3 one3) one3 = one3 ∧ mat_mul one3 (inv3 one3) = one3) :=
  ⟨by norm_num [det3, one3, Fin.ext_iff],
    (projection_layer_init_spec one3).2 (by norm_num [det3, one3, Fin.ext_iff])⟩

/-- C8: for every layer state produced by construction, `call` hands the
warping routine the input pose multiplied by the layer constant
`POSE_SCALING = 0.01`; the multiplication happens inside the layer, with
the same factor `1/100` on every invocation and input. -/
theorem projection_layer_pose_scaling :
    ∀ {Img Dep Coords : Type}
      (inverse_warp : Img → Dep → (Fin 6 → ℚ) → Mat3 → Mat3 → Img × Coords)
      (Kopt : Option Mat3) (s : ProjectionLayerState),
      ProjectionLayer.init Kopt = Except.ok s →
      s.POSE_SCALING = 1 / 100 ∧
        ∀ x : Img × Dep × (Fin 6 → ℚ),
          ProjectionLayer.call inverse_warp s x
            = (inverse_warp x.1 x.2.1 (fun t => x.2.2 t * (1 / 100))
                s.intrinsics_mat s.intrinsics_mat_inv).1 := by
  intro Img Dep Coords warp Kopt s hs
  have hps : s.POSE_SCALING = 1 / 100 := by
    simp only [ProjectionLayer.init] at hs
    cases hnp : np_linalg_inv (Kopt.getD DEFAULT_INTRINSICS) with
    | error e => simp [hnp] at hs
    | ok Minv =>
        simp only [hnp] at hs
        simp only [Except.ok.injEq] at hs
        rw [← hs]
        norm_num
  refine ⟨hps, ?_⟩
  intro x
  show (warp x.1 x.2.1 (fun t => x.2.2 t * s.POSE_SCALING)
      s.intrinsics_mat s.intrinsics_mat_inv).1 = _
  rw [hps]

/-- Witness for C8 with the default intrinsics and a probe warp routine
that returns the pose it receives. -/
theorem projection_layer_pose_scaling_witness :
    ProjectionLayer.init none = Except.ok S0 ∧
      (S0.POSE_SCALING = 1 / 100 ∧
        ProjectionLayer.call probe_warp S0 X0
          = (probe_warp X0.1 X0.2.1 (fun t => X0.2.2 t * (1 / 100))
              S0.intrinsics_mat S0.intrinsics_mat_inv).1) := by
  have hinit : ProjectionLayer.init none = Except.ok S0 := by
    simp only [ProjectionLayer.init, Option.getD, np_linalg_inv]
    rw [if_neg (by norm_num [det3, DEFAULT_INTRINSICS, Fin.ext_iff])]
    rfl
  have h := projection_layer_pose_scaling probe_warp none S0 hinit
  exact ⟨hinit, h.1, h.2 X0⟩

/-- C10: when the request body holds a decodable image and the
`plate_diameter` field is absent or not convertible to a float, the
handler reports no error: it proceeds with `plate_diameter = 0` and
answers 200 with the volumes list. -/
theorem predict_defaults_plate_diameter :
    ∀ {Img : Type} (decode_img : String → Option Img)
      (estimate_volume : Img → ℚ → ℚ → List ℚ) (content : PredictRequest)
      (s : String) (im : Img),
      content.img = some s → decode_img s = some im →
      (content.plate_diameter = none ∨ content.plate_diameter = some none) →
      volume_estimation decode_img estimate_volume content
        = HttpResult.ok 200
            ((estimate_volume im (content.fov.getD 70) 0).map
              (fun v => v * 1000000)) := by
  intro Img decode estimate content s im himg hdec hpd
  rcases hpd with h | h <;>
    simp [volume_estimation, himg, hdec, h]

/-- Witness for C10 on a request with a present but unconvertible
`plate_diameter` field. -/
theorem predict_defaults_plate_diameter_witness :
    volume_estimation (fun _ : String => some ())
        (fun _ _ p => [p + 5]) REQ0
      = HttpResult.ok 200 [(5 : ℚ) * 1000000] := by
  have h := predict_defaults_plate_diameter (fun _ : String => some ())
    (fun _ _ p => [p + 5]) REQ0 "x" () rfl rfl (Or.inr rfl)
  simpa using h
